import Mathlib

/-!
Verification development for a log-mining pipeline for an SQL tutoring
system.  The pipeline parses raw tutor logs into events
(logevents.py / extract.py), folds events into submission records
(submission.py), runs a family of stateful feature extractors over the
filtered submission sequence (features.py), derives an abandonment label
per retained submission, and trims warm-up rows (extract.py).

Timestamps are modelled as integers (seconds); a difference of two
timestamps in seconds is then an integer, standing for the float that
Python's total_seconds() returns (the logs carry second resolution).
-/

namespace SqlTutor

/-- Universal value type for feature output cells: Python feature values
are numbers, booleans or None. -/
inductive Val where
  | none
  | int (n : Int)
  | bool (b : Bool)
  deriving DecidableEq, Repr

/-- Submission accumulator, mirroring submission.py's Submission.__init__
field for field (the model_measure_event reference is kept as a flag;
nothing downstream reads its payload). -/
structure Sub where
  databaseChanges : Int := 0
  violated : List Int := []
  satisfied : List Int := []
  problemStatus : Option String := none
  beginHelpLevel : Option Int := none
  submitHelpLevel : Option Int := none
  beginTime : Option Int := none
  submitTime : Option Int := none
  solved : Bool := false
  problemId : Option Int := none
  database : Option String := none
  modelMeasure : Bool := false
  beginSession : Option Int := none
  endSession : Option Int := none
  solution : Option String := none
  deriving DecidableEq, Repr

instance : Inhabited Sub := ⟨{}⟩

/-- The event kinds that events_to_submissions dispatches on, with the
fields each handler reads.  LoggedInEvent covers its subclass
NewUserEvent (isinstance matches both); every kind the fold ignores is
collapsed into otherEvent. -/
inductive Event where
  | loggedIn (ts : Int)
  | setNewProblem (ts : Int) (helpLevel : Int)
  | databaseSet (ts : Int) (db : String)
  | databaseChange (ts : Int) (db : String) (problem : Int)
  | drawingProblem (ts : Int) (problemId : Int)
  | clientResponding (ts : Int) (problemId : Option Int)
      (problemStatus : Option String) (helpLevel : Option Int)
  | preProcess (ts : Int) (solution : String)
  | postProcess (ts : Int) (satisfied : List Int) (violated : List Int)
  | studentModelMeasure (ts : Int)
  | sessionEnd (ts : Int)
  | otherEvent
  deriving DecidableEq, Repr

/-- Submission.database_change: bump the change counter when the database
differs, set begin_time if unset (submission.py lines 31-38). -/
def dbChangeCore (cur : Sub) (ts : Int) (db : String) : Sub :=
  let c1 :=
    if some db ≠ cur.database then
      { cur with databaseChanges := cur.databaseChanges + 1, database := some db }
    else cur
  if c1.beginTime = none then { c1 with beginTime := some ts } else c1

/-- Submission.post_process (submission.py lines 24-29): record the
constraint lists and submit time; mark solved when no constraint is
violated. -/
def finalizeSub (cur : Sub) (ts : Int) (sat vio : List Int) : Sub :=
  { cur with satisfied := sat, violated := vio, submitTime := some ts,
             solved := if vio.length = 0 then true else cur.solved }

/-- One iteration of the events_to_submissions loop (submission.py lines
67-114): mutate the current accumulator, and emit it exactly on a
post-process event. -/
def processEvent (cur : Sub) : Event → Sub × Option Sub
  | .loggedIn ts => ({ cur with beginSession := some ts }, none)
  | .setNewProblem ts hl =>
      ({ cur with beginHelpLevel := some hl, beginTime := some ts }, none)
  | .databaseSet ts db => (dbChangeCore cur ts db, none)
  | .databaseChange ts db pb =>
      ({ dbChangeCore cur ts db with problemId := some pb }, none)
  | .drawingProblem ts pid =>
      ({ cur with beginTime := some ts, problemId := some pid }, none)
  | .clientResponding _ pid ps hl =>
      ({ cur with problemId := pid, problemStatus := ps, submitHelpLevel := hl }, none)
  | .preProcess _ sol => ({ cur with solution := some sol }, none)
  | .postProcess ts sat vio =>
      ({}, some (finalizeSub cur ts sat vio))
  | .studentModelMeasure _ => ({ cur with modelMeasure := true }, none)
  | .sessionEnd ts => ({ cur with endSession := some ts }, none)
  | .otherEvent => (cur, none)

/-- Whether an event is a post-process event. -/
def isPostProcess : Event → Bool
  | .postProcess _ _ _ => true
  | _ => false

/-- The fold body of events_to_submissions, carrying the current
accumulator. -/
def etsGo (cur : Sub) : List Event → List Sub
  | [] => []
  | e :: rest =>
      match processEvent cur e with
      | (cur', some s) => s :: etsGo cur' rest
      | (cur', none) => etsGo cur' rest

/-- events_to_submissions (submission.py lines 67-114). -/
def eventsToSubmissions (events : List Event) : List Sub := etsGo {} events

/-- The accumulator state after a prefix of events. -/
def etsState (cur : Sub) (events : List Event) : Sub :=
  events.foldl (fun c e => (processEvent c e).1) cur

theorem processEvent_isSome (cur : Sub) (e : Event) :
    (processEvent cur e).2.isSome = isPostProcess e := by
  cases e <;> rfl

theorem etsGo_cons (cur : Sub) (e : Event) (rest : List Event) :
    etsGo cur (e :: rest) =
      match (processEvent cur e).2 with
      | some s => s :: etsGo (processEvent cur e).1 rest
      | none => etsGo (processEvent cur e).1 rest := by
  conv_lhs => rw [etsGo]
  rcases h : processEvent cur e with ⟨cur', out⟩
  cases out <;> rfl

theorem etsGo_length (events : List Event) :
    ∀ cur : Sub, (etsGo cur events).length = (events.filter isPostProcess).length := by
  induction events with
  | nil => intro cur; simp [etsGo]
  | cons e rest ih =>
      intro cur
      rw [etsGo_cons, List.filter_cons]
      have hps := processEvent_isSome cur e
      cases hm : (processEvent cur e).2 with
      | none =>
          rw [hm] at hps
          simp only [Option.isSome_none] at hps
          simp [← hps, ih]
      | some s =>
          rw [hm] at hps
          simp only [Option.isSome_some] at hps
          simp [← hps, ih]

theorem etsGo_append (l1 l2 : List Event) :
    ∀ cur : Sub, etsGo cur (l1 ++ l2) = etsGo cur l1 ++ etsGo (etsState cur l1) l2 := by
  induction l1 with
  | nil => intro cur; simp [etsGo, etsState]
  | cons e rest ih =>
      intro cur
      have hstate : etsState cur (e :: rest) = etsState (processEvent cur e).1 rest := by
        simp [etsState]
      rw [List.cons_append, etsGo_cons, etsGo_cons, hstate]
      cases hm : (processEvent cur e).2 <;> simp [ih]

/-- C1: events_to_submissions emits exactly one Submission per
post-process event: the output length equals the number of post-process
events, and appending any non-post-process event (in particular any
trailing accumulator activity that never sees a post-process event)
leaves the output unchanged. -/
theorem eventsToSubmissions_count :
    (∀ events : List Event,
      (eventsToSubmissions events).length = (events.filter isPostProcess).length) ∧
    (∀ (events : List Event) (e : Event), isPostProcess e = false →
      eventsToSubmissions (events ++ [e]) = eventsToSubmissions events) := by
  constructor
  · intro events
    exact etsGo_length events {}
  · intro events e he
    unfold eventsToSubmissions
    rw [etsGo_append]
    have hps := processEvent_isSome (etsState {} events) e
    rw [he] at hps
    rw [etsGo_cons]
    cases hm : (processEvent (etsState {} events) e).2 with
    | none => simp [etsGo]
    | some s => rw [hm] at hps; simp at hps


/-- Witness for C1 at a concrete event sequence: one post-process event
yields exactly one submission, and a trailing session-end (an event that
is not post-process) adds none. -/
theorem eventsToSubmissions_count_witness :
    (eventsToSubmissions
      [Event.preProcess 0 "SELECT 1", Event.postProcess 5 [1] [],
       Event.preProcess 7 "SELECT 2"]).length = 1 ∧
    eventsToSubmissions
      [Event.postProcess 5 [1] [], Event.sessionEnd 9] =
      eventsToSubmissions [Event.postProcess 5 [1] []] := by
  constructor
  · rw [eventsToSubmissions_count.1
      [Event.preProcess 0 "SELECT 1", Event.postProcess 5 [1] [],
       Event.preProcess 7 "SELECT 2"]]
    decide
  · exact eventsToSubmissions_count.2 [Event.postProcess 5 [1] []]
      (Event.sessionEnd 9) (by decide)

/-- should_skip_subm (features.py lines 937-941): skip a submission with
no solution text and no session-begin timestamp. -/
def shouldSkipSubm (s : Sub) : Bool :=
  s.solution.isNone && s.beginSession.isNone

/-- The submissions actually consumed by every extractor: build_features
(features.py lines 928-935) tests should_skip_subm once per submission,
before any extractor is invoked, and otherwise feeds the submission to
each feature in turn.  Since the extractor objects are independent,
feeding all features submission by submission equals running each
feature over this filtered list. -/
def consumedSubs (subms : List Sub) : List Sub :=
  subms.filter (fun s => !shouldSkipSubm s)

/-- State shared by all FeatureBase extractors (features.py lines 5-41):
the two most recent submissions, the output values, plus kind-specific
auxiliary state α. -/
structure SimpleState (α : Type) where
  aux : α
  lastSub : Option Sub := none
  curSub : Option Sub := none
  vals : List Val := []
  deriving Repr

/-- FeatureBase.new_submission (features.py lines 22-25): shift
current→last, set the new current, append the value returned by the
kind-specific _submission_value, which may also update auxiliary state
(it receives the auxiliary state, the new current submission, and the
previous submission). -/
def simpleStep (f : α → Sub → Option Sub → α × Val)
    (st : SimpleState α) (sub : Sub) : SimpleState α :=
  let last := st.curSub
  let r := f st.aux sub last
  { aux := r.1, lastSub := last, curSub := some sub, vals := st.vals ++ [r.2] }

def runSimpleFrom (f : α → Sub → Option Sub → α × Val)
    (st : SimpleState α) (l : List Sub) : SimpleState α :=
  l.foldl (simpleStep f) st

/-- A FeatureBase extractor's state after build_features. -/
def runSimple (f : α → Sub → Option Sub → α × Val) (a0 : α)
    (subms : List Sub) : SimpleState α :=
  runSimpleFrom f { aux := a0 } (consumedSubs subms)

theorem runSimpleFrom_length (f : α → Sub → Option Sub → α × Val)
    (l : List Sub) : ∀ st : SimpleState α,
    (runSimpleFrom f st l).vals.length = st.vals.length + l.length := by
  induction l with
  | nil => intro st; simp [runSimpleFrom]
  | cons s rest ih =>
      intro st
      have := ih (simpleStep f st s)
      simp only [runSimpleFrom, List.foldl_cons] at this ⊢
      rw [this]
      simp [simpleStep]
      omega

/-- State of a PreviousProblemFeatureBase extractor (features.py lines
153-179): the runs grouped by problem id, the current problem id (None
both before the first submission and after a submission whose problem id
is None, exactly as in the source), plus kind-specific auxiliary
state. -/
structure PPState (α : Type) where
  aux : α
  lastSub : Option Sub := none
  curSub : Option Sub := none
  prevRun : List Sub := []
  curRun : List Sub := []
  curProbId : Option Int := none
  vals : List Val := []
  deriving Repr

/-- PreviousProblemFeatureBase.new_submission (features.py lines
160-175): maintain the contiguous same-problem runs, then append None
while no previous run exists and otherwise the kind-specific
_submission_value (which reads the whole post-update state and may
update auxiliary state). -/
def ppStep (f : PPState α → α × Val) (st : PPState α) (sub : Sub) : PPState α :=
  let last := st.curSub
  let cpid := if st.curProbId = none then sub.problemId else st.curProbId
  let st1 :=
    if cpid = sub.problemId then
      { st with lastSub := last, curSub := some sub, curProbId := cpid,
                curRun := st.curRun ++ [sub] }
    else
      { st with lastSub := last, curSub := some sub, prevRun := st.curRun,
                curProbId := sub.problemId, curRun := [sub] }
  if st1.prevRun.length = 0 then { st1 with vals := st1.vals ++ [Val.none] }
  else
    let r := f st1
    { st1 with aux := r.1, vals := st1.vals ++ [r.2] }

def runPPFrom (f : PPState α → α × Val) (st : PPState α) (l : List Sub) :
    PPState α :=
  l.foldl (ppStep f) st

/-- A PreviousProblemFeatureBase extractor's state after build_features. -/
def runPP (f : PPState α → α × Val) (a0 : α) (subms : List Sub) : PPState α :=
  runPPFrom f { aux := a0 } (consumedSubs subms)

theorem ppStep_length (f : PPState α → α × Val) (st : PPState α) (sub : Sub) :
    (ppStep f st sub).vals.length = st.vals.length + 1 := by
  unfold ppStep
  dsimp only
  repeat' split
  all_goals simp

theorem runPPFrom_length (f : PPState α → α × Val) (l : List Sub) :
    ∀ st : PPState α,
    (runPPFrom f st l).vals.length = st.vals.length + l.length := by
  induction l with
  | nil => intro st; simp [runPPFrom]
  | cons s rest ih =>
      intro st
      have hrec := ih (ppStep f st s)
      have hp := ppStep_length f st s
      simp only [runPPFrom, List.foldl_cons, List.length_cons] at hrec ⊢
      omega

/-- statistics.mean over a buffer whose entries may be Python None;
a None entry raises (TypeError), modelled as Option failure. -/
def pyMean (l : List (Option Rat)) : Option Rat :=
  match l.mapM id with
  | some xs => some (xs.sum / (xs.length : Rat))
  | none => none

/-- The sample variance behind statistics.stdev (n−1 denominator); the
source emits its square root, an irrational real, so this development
records the radicand — definedness and nullness are unchanged.  A None
entry raises (TypeError), modelled as Option failure. -/
def pySampleVar (l : List (Option Rat)) : Option Rat :=
  match l.mapM id with
  | some xs =>
      let m := xs.sum / (xs.length : Rat)
      some ((xs.map (fun x => (x - m) * (x - m))).sum / ((xs.length : Rat) - 1))
  | none => none

/-- State of a CumulativeStatisticsFeatureBase extractor (features.py
lines 44-54): the FeatureBase state, the four derived output sequences
and the two source buffers.  Raw values of wrapped extractors are
numeric-or-None, kept as Option Rat. -/
structure CumState (α : Type) where
  aux : α
  lastSub : Option Sub := none
  curSub : Option Sub := none
  vals : List (Option Rat) := []
  meanVals : List (Option Rat) := []
  meanSrc : List (Option Rat) := []
  stdevVals : List (Option Rat) := []
  stdevSrc : List (Option Rat) := []
  maxVals : List (Option Rat) := []
  minVals : List (Option Rat) := []
  deriving DecidableEq, Repr

/-- The abstract methods a concrete wrapped extractor supplies: the raw
_submission_value (which may update auxiliary state),
clear_src_values_for_session (default false in the source), and the two
inclusion predicates, which read the post-_submission_value state and
the current submission. -/
structure CumParams (α : Type) where
  subVal : α → Sub → Option Sub → α × Option Rat
  clearSrc : α → Sub → Bool
  addMean : α → Sub → Bool
  addStdev : α → Sub → Bool

/-- CumulativeStatisticsFeatureBase.new_submission (features.py lines
56-84): append the raw value, optionally reset the source buffers,
conditionally extend them, emit mean when the mean buffer is non-empty
and stdev when the stdev buffer has at least two entries (else null),
then emit running max/min over all non-null raw values.  A statistics
call over a buffer holding a None raises in the source; the step then
returns none. -/
def cumStep (p : CumParams α) (st : CumState α) (sub : Sub) :
    Option (CumState α) :=
  let last := st.curSub
  let r := p.subVal st.aux sub last
  let vals1 := st.vals ++ [r.2]
  let mSrc0 := if p.clearSrc r.1 sub then [] else st.meanSrc
  let sSrc0 := if p.clearSrc r.1 sub then [] else st.stdevSrc
  let mSrc := if p.addMean r.1 sub then mSrc0 ++ [r.2] else mSrc0
  match (if 0 < mSrc.length then (pyMean mSrc).map some else some none) with
  | none => none
  | some mOut =>
    let sSrc := if p.addStdev r.1 sub then sSrc0 ++ [r.2] else sSrc0
    match (if 1 < sSrc.length then (pySampleVar sSrc).map some else some none) with
    | none => none
    | some sOut =>
      let nn := vals1.filterMap id
      some { aux := r.1, lastSub := last, curSub := some sub,
             vals := vals1,
             meanVals := st.meanVals ++ [mOut], meanSrc := mSrc,
             stdevVals := st.stdevVals ++ [sOut], stdevSrc := sSrc,
             maxVals := st.maxVals ++ [nn.max?],
             minVals := st.minVals ++ [nn.min?] }

def runCumGo (p : CumParams α) (st : CumState α) : List Sub → Option (CumState α)
  | [] => some st
  | s :: rest =>
      match cumStep p st s with
      | some st' => runCumGo p st' rest
      | none => none

/-- A CumulativeStatisticsFeatureBase extractor's state after
build_features (none when a statistics call raised mid-run). -/
def runCum (p : CumParams α) (a0 : α) (subms : List Sub) :
    Option (CumState α) :=
  runCumGo p { aux := a0 } (consumedSubs subms)

theorem cumStep_shape (p : CumParams α) (st : CumState α) (sub : Sub)
    (st' : CumState α) (h : cumStep p st sub = some st') :
    st'.vals.length = st.vals.length + 1 ∧
    st'.meanVals.length = st.meanVals.length + 1 ∧
    st'.stdevVals.length = st.stdevVals.length + 1 ∧
    st'.maxVals.length = st.maxVals.length + 1 ∧
    st'.minVals.length = st.minVals.length + 1 := by
  unfold cumStep at h
  dsimp only at h
  split at h
  · exact absurd h (by simp)
  · split at h
    · exact absurd h (by simp)
    · rw [Option.some_inj] at h
      subst h
      simp

theorem runCumGo_length (p : CumParams α) (l : List Sub) :
    ∀ st st' : CumState α, runCumGo p st l = some st' →
    st'.vals.length = st.vals.length + l.length ∧
    st'.meanVals.length = st.meanVals.length + l.length ∧
    st'.stdevVals.length = st.stdevVals.length + l.length ∧
    st'.maxVals.length = st.maxVals.length + l.length ∧
    st'.minVals.length = st.minVals.length + l.length := by
  induction l with
  | nil =>
      intro st st' h
      simp only [runCumGo, Option.some_inj] at h
      subst h
      simp
  | cons s rest ih =>
      intro st st' h
      simp only [runCumGo] at h
      cases hm : cumStep p st s with
      | none => rw [hm] at h; exact absurd h (by simp)
      | some st1 =>
          rw [hm] at h
          obtain ⟨h1, h2, h3, h4, h5⟩ := ih st1 st' h
          obtain ⟨g1, g2, g3, g4, g5⟩ := cumStep_shape p st s st1 hm
          refine ⟨?_, ?_, ?_, ?_, ?_⟩ <;> simp only [List.length_cons] <;> omega

/-- C2: a submission with no solution text and no session-begin
timestamp is consumed by no extractor (it is absent from the filtered
sequence, so no output row is produced for it), and after the framework
runs, every extractor shape's values sequence — FeatureBase,
PreviousProblemFeatureBase, and CumulativeStatisticsFeatureBase with all
four derived sequences — has length equal to the number of non-skipped
submissions. -/
theorem buildFeatures_alignment :
    (∀ s : Sub, shouldSkipSubm s = true ↔
      (s.solution = none ∧ s.beginSession = none)) ∧
    (∀ (subms : List Sub) (s : Sub), shouldSkipSubm s = true →
      s ∉ consumedSubs subms) ∧
    (∀ (α : Type) (f : α → Sub → Option Sub → α × Val) (a0 : α)
      (subms : List Sub),
      (runSimple f a0 subms).vals.length = (consumedSubs subms).length) ∧
    (∀ (α : Type) (f : PPState α → α × Val) (a0 : α) (subms : List Sub),
      (runPP f a0 subms).vals.length = (consumedSubs subms).length) ∧
    (∀ (α : Type) (p : CumParams α) (a0 : α) (subms : List Sub)
      (st' : CumState α), runCum p a0 subms = some st' →
      st'.vals.length = (consumedSubs subms).length ∧
      st'.meanVals.length = (consumedSubs subms).length ∧
      st'.stdevVals.length = (consumedSubs subms).length ∧
      st'.maxVals.length = (consumedSubs subms).length ∧
      st'.minVals.length = (consumedSubs subms).length) := by
  refine ⟨?_, ?_, ?_, ?_, ?_⟩
  · intro s
    simp [shouldSkipSubm, Option.isNone_iff_eq_none]
  · intro subms s hs hmem
    simp only [consumedSubs, List.mem_filter] at hmem
    rw [hs] at hmem
    simp at hmem
  · intro α f a0 subms
    rw [runSimple, runSimpleFrom_length]
    simp
  · intro α f a0 subms
    rw [runPP, runPPFrom_length]
    simp
  · intro α p a0 subms st' h
    have := runCumGo_length p (consumedSubs subms) { aux := a0 } st' h
    simpa using this

/-- A concrete wrapped extractor for witnesses: constant raw value 1,
always included in both buffers, no session reset. -/
def cwParams : CumParams Unit :=
  { subVal := fun u _ _ => (u, some 1), clearSrc := fun _ _ => false,
    addMean := fun _ _ => true, addStdev := fun _ _ => true }

/-- A consumed submission (has solution text). -/
def cwS1 : Sub := { solution := some "q" }

/-- A consumed submission (has a session-begin timestamp). -/
def cwS2 : Sub := { beginSession := some 3 }

/-- The state of the cwParams extractor after consuming cwS1. -/
def cwSt1 : CumState Unit :=
  { aux := (), lastSub := none, curSub := some cwS1,
    vals := [some 1], meanVals := [some 1], meanSrc := [some 1],
    stdevVals := [none], stdevSrc := [some 1],
    maxVals := [some 1], minVals := [some 1] }

/-- The state of the cwParams extractor after consuming cwS1 then cwS2. -/
def cwSt2 : CumState Unit :=
  { aux := (), lastSub := some cwS1, curSub := some cwS2,
    vals := [some 1, some 1], meanVals := [some 1, some 1],
    meanSrc := [some 1, some 1], stdevVals := [none, some 0],
    stdevSrc := [some 1, some 1], maxVals := [some 1, some 1],
    minVals := [some 1, some 1] }

/-- Witness for C2 at concrete inputs: the all-default submission is
skipped and consumed by no extractor, while concrete runs of each shape
over one skipped and two consumed submissions produce sequences of
length 2. -/
theorem buildFeatures_alignment_witness :
    (shouldSkipSubm {} = true ∧ ({} : Sub).solution = none ∧
      ({} : Sub).beginSession = none) ∧
    ({} : Sub) ∉ consumedSubs [{}, cwS1] ∧
    (runSimple (fun (u : Unit) _ _ => (u, Val.int 7)) ()
      [{}, cwS1, cwS2]).vals.length = 2 ∧
    (runPP (fun st => (st.aux, Val.int 5)) ()
      [{}, cwS1, cwS2]).vals.length = 2 ∧
    (cwSt2.vals.length = 2 ∧ cwSt2.meanVals.length = 2 ∧
      cwSt2.stdevVals.length = 2 ∧ cwSt2.maxVals.length = 2 ∧
      cwSt2.minVals.length = 2) := by
  refine ⟨⟨?_, ?_, ?_⟩, ?_, ?_, ?_, ?_⟩
  · exact (buildFeatures_alignment.1 {}).mpr ⟨rfl, rfl⟩
  · rfl
  · rfl
  · exact buildFeatures_alignment.2.1 [{}, cwS1] {} (by decide)
  · rw [buildFeatures_alignment.2.2.1 Unit (fun u _ _ => (u, Val.int 7)) ()
      [{}, cwS1, cwS2]]
    decide
  · rw [buildFeatures_alignment.2.2.2.1 Unit (fun st => (st.aux, Val.int 5)) ()
      [{}, cwS1, cwS2]]
    decide
  · have h := buildFeatures_alignment.2.2.2.2 Unit cwParams ()
      [{}, cwS1, cwS2] cwSt2 (by
        simp [runCum, runCumGo, cumStep, consumedSubs, shouldSkipSubm,
          cwParams, cwS1, cwS2, cwSt2, pyMean, pySampleVar,
          List.mapM, List.mapM.loop, List.max?, List.min?])
    have hl : (consumedSubs [{}, cwS1, cwS2]).length = 2 := by decide
    rw [hl] at h
    exact h

theorem meanGuard (src : List (Option Rat)) (out : Option Rat)
    (h : (if 0 < src.length then (pyMean src).map some else some none) = some out) :
    out = none ↔ src.length = 0 := by
  split at h
  · rename_i hl
    obtain ⟨a, _, rfl⟩ := Option.map_eq_some'.mp h
    constructor
    · intro h0; cases h0
    · intro h0; omega
  · rename_i hl
    rw [Option.some_inj] at h
    subst h
    constructor
    · intro _; omega
    · intro _; rfl

theorem stdevGuard (src : List (Option Rat)) (out : Option Rat)
    (h : (if 1 < src.length then (pySampleVar src).map some else some none) = some out) :
    out = none ↔ src.length < 2 := by
  split at h
  · rename_i hl
    obtain ⟨a, _, rfl⟩ := Option.map_eq_some'.mp h
    constructor
    · intro h0; cases h0
    · intro h0; omega
  · rename_i hl
    rw [Option.some_inj] at h
    subst h
    constructor
    · intro _; omega
    · intro _; rfl

/-- C5: for every cumulative-statistics extractor (any inner state, raw
value function and inclusion predicates) and every consumed submission,
the emitted stdev value is null exactly when the stdev source buffer
holds fewer than 2 entries, the emitted mean value is null exactly when
the mean source buffer is empty, and whenever a statistic is emitted
non-null its buffer meets the minimum size, so mean and sample stdev
are never computed over an empty resp. singleton buffer (the n and n−1
denominators are positive). -/
theorem cumStats_null_safety :
    ∀ (α : Type) (p : CumParams α) (st : CumState α) (sub : Sub)
      (st' : CumState α), cumStep p st sub = some st' →
      (st'.stdevVals.getLast? = some none ↔ st'.stdevSrc.length < 2) ∧
      (st'.meanVals.getLast? = some none ↔ st'.meanSrc.length = 0) ∧
      (∀ q : Rat, st'.meanVals.getLast? = some (some q) →
        1 ≤ st'.meanSrc.length) ∧
      (∀ q : Rat, st'.stdevVals.getLast? = some (some q) →
        2 ≤ st'.stdevSrc.length) := by
  intro α p st sub st' h
  unfold cumStep at h
  dsimp only at h
  split at h
  · exact absurd h (by simp)
  · rename_i mOut heqm
    split at h
    · exact absurd h (by simp)
    · rename_i sOut heqs
      rw [Option.some_inj] at h
      subst h
      dsimp only
      have hmean := meanGuard _ _ heqm
      have hstdev := stdevGuard _ _ heqs
      rw [List.getLast?_concat, List.getLast?_concat]
      refine ⟨?_, ?_, ?_, ?_⟩
      · rw [Option.some_inj]; exact hstdev
      · rw [Option.some_inj]; exact hmean
      · intro q hq
        rw [Option.some_inj] at hq
        subst hq
        have : ¬ ((some q : Option Rat) = none) := by simp
        rw [hmean] at this
        omega
      · intro q hq
        rw [Option.some_inj] at hq
        subst hq
        have : ¬ ((some q : Option Rat) = none) := by simp
        rw [hstdev] at this
        omega

/-- Witness for C5: one step of the concrete cwParams extractor from the
post-cwS1 state, where the stdev buffer reaches two entries and the mean
buffer is non-empty. -/
theorem cumStats_null_safety_witness :
    (cwSt2.stdevVals.getLast? = some none ↔ cwSt2.stdevSrc.length < 2) ∧
    (cwSt2.meanVals.getLast? = some none ↔ cwSt2.meanSrc.length = 0) ∧
    (∀ q : Rat, cwSt2.meanVals.getLast? = some (some q) →
      1 ≤ cwSt2.meanSrc.length) ∧
    (∀ q : Rat, cwSt2.stdevVals.getLast? = some (some q) →
      2 ≤ cwSt2.stdevSrc.length) :=
  cumStats_null_safety Unit cwParams cwSt1 cwS2 cwSt2 (by
    simp [cumStep, cwParams, cwSt1, cwS1, cwS2, cwSt2, pyMean, pySampleVar,
      List.mapM, List.mapM.loop, List.max?, List.min?])

/-- subms[i] with the default submission out of range (the source only
indexes in range). -/
def subAt (subms : List Sub) (i : Nat) : Sub := subms.getD i {}

/-- The if/elif chain of classify_problems (extract.py lines 153-164)
computing the outcome for retained index i; lookahead subms[i+1] is over
the unfiltered submission list. -/
def classifyOutcome (subms : List Sub) (i : Nat) : String :=
  if (subAt subms i).solved then "not_abandoned"
  else if subms.length ≤ i + 1 then "abandoned"
  else if (subAt subms i).problemId = (subAt subms (i + 1)).problemId then
    if shouldSkipSubm (subAt subms (i + 1)) then "abandoned" else "not_abandoned"
  else "abandoned"

/-- classify_problems (extract.py lines 148-166): loop i over the whole
submission list, skip filtered submissions, append the outcome for the
rest. -/
def classifyProblems (subms : List Sub) : List String :=
  (List.range subms.length).foldl
    (fun acc i =>
      if shouldSkipSubm (subAt subms i) then acc
      else acc ++ [classifyOutcome subms i]) []

/-- The label rule as the specification words it: not_abandoned if
submission i solved; else abandoned if i is the last submission; else,
if submission i+1 has the same problem id, abandoned exactly when
submission i+1 would itself be skip-filtered; else abandoned. -/
def labelSpecC3 (subms : List Sub) (i : Nat) : String :=
  if (subAt subms i).solved then "not_abandoned"
  else if i = subms.length - 1 then "abandoned"
  else if (subAt subms i).problemId = (subAt subms (i + 1)).problemId then
    if shouldSkipSubm (subAt subms (i + 1)) then "abandoned" else "not_abandoned"
  else "abandoned"

theorem foldl_skip_append (q : Nat → Bool) (f : Nat → β) (l : List Nat) :
    ∀ acc : List β,
    l.foldl (fun acc i => if q i then acc else acc ++ [f i]) acc
      = acc ++ (l.filter (fun i => !q i)).map f := by
  induction l with
  | nil => intro acc; simp
  | cons a l ih =>
      intro acc
      simp only [List.foldl_cons, List.filter_cons]
      cases hq : q a <;> simp [hq, ih]

/-- C3: the label deriver assigns, for each retained submission index i
(skip-filtered indices produce no label), exactly the lookahead rule of
the specification: not_abandoned when solved, abandoned when i is the
last submission, else — when the next submission has the same problem
id — abandoned precisely when the next submission would itself be
skip-filtered, and abandoned when the next problem id differs. -/
theorem classifyProblems_spec :
    ∀ subms : List Sub,
    classifyProblems subms =
      ((List.range subms.length).filter
        (fun i => !shouldSkipSubm (subAt subms i))).map (labelSpecC3 subms) := by
  intro subms
  rw [classifyProblems, foldl_skip_append]
  rw [List.nil_append]
  apply List.map_congr_left
  intro i hi
  have hmem : i ∈ List.range subms.length := List.mem_of_mem_filter hi
  have hlt : i < subms.length := List.mem_range.mp hmem
  unfold classifyOutcome labelSpecC3
  have h2 : subms.length ≤ i + 1 ↔ i = subms.length - 1 := by omega
  simp only [h2]

/-- insertion into the Python set of attempted problem ids (only the
cardinality is observable; the model keeps first-insertion order). -/
def insertSet (x : Option Int) (s : List (Option Int)) : List (Option Int) :=
  if x ∈ s then s else s ++ [x]

/-- ProblemsAttemptedCumulative._submission_value (features.py lines
636-640): reset the attempted set whenever the submission carries a
session-begin timestamp, add the current problem id, return the set
size. -/
def paStep (att : List (Option Int)) (sub : Sub) : List (Option Int) × Int :=
  let att0 := if sub.beginSession.isSome then [] else att
  let att1 := insertSet sub.problemId att0
  (att1, (att1.length : Int))

def paValsGo (att : List (Option Int)) : List Sub → List Int
  | [] => []
  | s :: rest => (paStep att s).2 :: paValsGo (paStep att s).1 rest

/-- The value sequence of the ProblemsAttemptedCumulative feature over
the filtered submissions, as build_features produces it. -/
def paValues (subms : List Sub) : List Int :=
  paValsGo [] (consumedSubs subms)

/-- The warm-up trim index list of extract_data (extract.py lines
75-79): indices whose distinct-problems-attempted value is below 2,
collected ascending and then reversed. -/
def indicesToDelete (pa : List Int) : List Nat :=
  ((List.range pa.length).filter (fun i => decide (pa.getD i 0 < 2))).reverse

/-- The deletion loop of extract_data (extract.py lines 80-87): Python
del feature.values[i] over the (descending) index list. -/
def delAll (l : List α) (idxs : List Nat) : List α :=
  idxs.foldl List.eraseIdx l

/-- Four consumed submissions on four distinct problems, the third of
which carries a mid-file session-begin timestamp. -/
def c10subs : List Sub :=
  [{ problemId := some 1, solution := some "a" },
   { problemId := some 2, solution := some "b" },
   { problemId := some 3, solution := some "c", beginSession := some 50 },
   { problemId := some 4, solution := some "d" }]

/-- C10: the cumulative distinct-problems-attempted extractor resets its
attempted set to empty on any submission carrying a session-begin
timestamp, so its value is exactly 1 there; consequently (concrete
mid-file session restart) the warm-up trim also drops such a mid-file
row, not only leading rows. -/
theorem problemsAttempted_session_reset :
    (∀ (att : List (Option Int)) (sub : Sub), sub.beginSession.isSome = true →
      (paStep att sub).2 = 1) ∧
    (paValues c10subs = [1, 2, 1, 2] ∧
     indicesToDelete (paValues c10subs) = [2, 0] ∧
     delAll ["r0", "r1", "r2", "r3"] (indicesToDelete (paValues c10subs))
       = ["r1", "r3"]) := by
  constructor
  · intro att sub h
    simp [paStep, insertSet, h]
  · refine ⟨by decide, by decide, by decide⟩

/-- Witness for C10: a concrete session-restart submission with a
non-empty attempted set yields the value 1. -/
theorem problemsAttempted_session_reset_witness :
    (paStep [some 5] { beginSession := some 7 }).2 = 1 :=
  problemsAttempted_session_reset.1 [some 5] { beginSession := some 7 } (by decide)

/-- ViolatedConstraints (features.py lines 182-200): raw value is the
violated-constraint count when solution text exists, else None; both
inclusion predicates require solution text; no session reset. -/
def vcParams : CumParams Unit :=
  { subVal := fun u sub _ =>
      (u, if sub.solution.isSome then some ((sub.violated.length : Int) : Rat)
          else Option.none),
    clearSrc := fun _ _ => false,
    addMean := fun _ sub => sub.solution.isSome,
    addStdev := fun _ sub => sub.solution.isSome }

/-- The per-file result of extract_data restricted to two representative
feature columns: ProblemsAttemptedCumulative (which drives the trim
indices) and ViolatedConstraints (features[0], a cumulative-statistics
feature with its four derived sequences), plus the classification
list. -/
structure FileModel where
  paVals : List Int
  vcVals : List (Option Rat)
  vcMean : List (Option Rat)
  vcStdev : List (Option Rat)
  vcMax : List (Option Rat)
  vcMin : List (Option Rat)
  classifications : List String
  deriving DecidableEq, Repr

/-- extract_data (extract.py lines 69-89): build the features, delete
every row whose distinct-problems-attempted value is below 2 from every
feature column (for cumulative-statistics features also from the four
derived sequences), and return the classify_problems output, to which
the source applies no deletion. -/
def extractDataModel (subms : List Sub) : Option FileModel :=
  match runCum vcParams () subms with
  | none => none
  | some st =>
    let pa := paValues subms
    let idx := indicesToDelete pa
    some { paVals := delAll pa idx, vcVals := delAll st.vals idx,
           vcMean := delAll st.meanVals idx, vcStdev := delAll st.stdevVals idx,
           vcMax := delAll st.maxVals idx, vcMin := delAll st.minVals idx,
           classifications := classifyProblems subms }

/-- Three consumed submissions: problem 1 unsolved, then problem 2
solved, then problem 2 unsolved.  The first row has
distinct-problems-attempted 1 and is trimmed. -/
def c4subs : List Sub :=
  [{ problemId := some 1, solution := some "a", violated := [1],
     submitTime := some 10 },
   { problemId := some 2, solution := some "b", violated := [],
     solved := true, submitTime := some 20 },
   { problemId := some 2, solution := some "c", violated := [2],
     submitTime := some 30 }]

/-- The per-file output the source produces on c4subs: feature columns
trimmed to 2 rows, classification list left at 3 entries. -/
def c4result : FileModel :=
  { paVals := [2, 2], vcVals := [some 0, some 1],
    vcMean := [some (1/2), some (2/3)], vcStdev := [some (1/2), some (1/3)],
    vcMax := [some 1, some 1], vcMin := [some 0, some 0],
    classifications := ["abandoned", "not_abandoned", "abandoned"] }

/-- C4 (code and spec diverge): on c4subs the warm-up trim drops row 0
from every feature column, including the four derived
cumulative-statistics columns, but the classification list is returned
untrimmed — its length stays 3 while every feature column has length 2,
so the final per-file feature and label outputs do not stay aligned. -/
theorem warmupTrim_keeps_labels_untrimmed :
    extractDataModel c4subs = some c4result ∧
    c4result.paVals.length + 1 = c4result.classifications.length := by
  constructor
  · simp [extractDataModel, runCum, runCumGo, cumStep, consumedSubs,
      shouldSkipSubm, vcParams, c4subs, c4result, pyMean, pySampleVar,
      List.mapM, List.mapM.loop, List.max?, List.min?, paValues, paValsGo,
      paStep, insertSet, indicesToDelete, delAll, classifyProblems,
      classifyOutcome, subAt, List.range_succ]
    norm_num
  · decide

/-- TimeTakenPrev._submission_value (features.py lines 403-413): the try
block computes the full-run elapsed time into a local (printing a
diagnostic when it exceeds 1000000) but ends without a return statement,
so the method returns None on every path; the except TypeError branch
returns None as well.  (The caller guarantees a non-empty previous run;
the wildcard arm is unreachable through ppStep.) -/
def timeTakenPrevVal (st : PPState Unit) : Val :=
  match st.prevRun.head?, st.prevRun.getLast? with
  | some firstSub, some lastSub =>
      match lastSub.submitTime, firstSub.beginTime with
      | some ts, some tb =>
          let _time := ts - tb
          Val.none
      | _, _ => Val.none
  | _, _ => Val.none

/-- The value the specification assigns to prev_time_taken, for
comparison with the source: elapsed seconds from the previous run's
first attempt's begin time to its last attempt's submit time, null when
those timestamps are absent. -/
def prevTimeTakenSpecValue (prevRun : List Sub) : Option Int :=
  match prevRun.head?, prevRun.getLast? with
  | some firstSub, some lastSub =>
      match firstSub.beginTime, lastSub.submitTime with
      | some tb, some ts => some (ts - tb)
      | _, _ => Option.none
  | _, _ => Option.none

/-- First attempt of the previous-problem run: begins at 0. -/
def c7a1 : Sub :=
  { problemId := some 1, solution := some "x", beginTime := some 0,
    submitTime := some 40 }

/-- Last attempt of the previous-problem run: submits at 100. -/
def c7a2 : Sub :=
  { problemId := some 1, solution := some "y", beginTime := some 60,
    submitTime := some 100 }

/-- The first submission of the following run. -/
def c7b : Sub :=
  { problemId := some 2, solution := some "z", beginTime := some 120,
    submitTime := some 150 }

/-- C7 (code falls short of the spec): TimeTakenPrev emits None for
every state — in particular for the problem-2 submission following a
run with both timestamps present, where the specification's full-run
elapsed time is 100 seconds. -/
theorem timeTakenPrev_returns_none :
    (∀ st : PPState Unit, timeTakenPrevVal st = Val.none) ∧
    (runPP (fun st => (st.aux, timeTakenPrevVal st)) ()
      [c7a1, c7a2, c7b]).vals = [Val.none, Val.none, Val.none] ∧
    prevTimeTakenSpecValue [c7a1, c7a2] = some 100 := by
  refine ⟨?_, by decide, by decide⟩
  intro st
  unfold timeTakenPrevVal
  repeat' split
  all_goals rfl

/-- TimeSincePreviousSubmission._submission_value (features.py lines
267-277): None without a previous submission, None when the current
submission carries a session-begin timestamp, else the submit-time
difference in seconds (a missing submit time raises TypeError, caught
to None). -/
def tspsVal (cur : Sub) (last : Option Sub) : Val :=
  match last with
  | Option.none => Val.none
  | some l =>
      if cur.beginSession.isSome then Val.none
      else
        match cur.submitTime, l.submitTime with
        | some t, some t2 => Val.int (t - t2)
        | _, _ => Val.none

def tspsF : Unit → Sub → Option Sub → Unit × Val :=
  fun u s last => (u, tspsVal s last)

/-- A submission 30 seconds into a session it begins. -/
def c8s1 : Sub :=
  { solution := some "a", submitTime := some 30, beginSession := some 0 }

/-- The next submission, 42 seconds into the same session, with no
session restart. -/
def c8s2 : Sub := { solution := some "b", submitTime := some 42 }

/-- C8: time_since_previous_submission is null when no previous
submission exists or when the submission carries a session-begin
timestamp; otherwise, with both submit times present, it is their
difference in seconds — and the concrete 30s/42s pair with no session
restart yields 12 for the second submission. -/
theorem timeSincePrev_spec :
    (∀ cur : Sub, tspsVal cur Option.none = Val.none) ∧
    (∀ (cur l : Sub), cur.beginSession.isSome = true →
      tspsVal cur (some l) = Val.none) ∧
    (∀ (cur l : Sub) (t t2 : Int), cur.beginSession = Option.none →
      cur.submitTime = some t → l.submitTime = some t2 →
      tspsVal cur (some l) = Val.int (t - t2)) ∧
    (runSimple tspsF () [c8s1, c8s2]).vals = [Val.none, Val.int 12] := by
  refine ⟨fun cur => rfl, ?_, ?_, by decide⟩
  · intro cur l h
    simp [tspsVal, h]
  · intro cur l t t2 h1 h2 h3
    simp [tspsVal, h1, h2, h3]

/-- Witness for C8: the concrete 30s/42s pair gives 12, and a
session-restart submission gives None. -/
theorem timeSincePrev_spec_witness :
    tspsVal c8s2 (some c8s1) = Val.int 12 ∧
    tspsVal c8s1 (some c8s2) = Val.none :=
  ⟨timeSincePrev_spec.2.2.1 c8s2 c8s1 42 30 rfl rfl rfl,
   timeSincePrev_spec.2.1 c8s1 c8s2 (by decide)⟩

/-- IdenticalSubmission._submission_value (features.py lines 922-926):
True/False comparison of the current and previous submissions' solution
texts; False (not None) when no previous submission exists (the current
submission is always set when the method runs). -/
def identVal (cur : Sub) (last : Option Sub) : Val :=
  match last with
  | some l => Val.bool (cur.solution == l.solution)
  | Option.none => Val.bool false

def identF : Unit → Sub → Option Sub → Unit × Val :=
  fun u s last => (u, identVal s last)

/-- The value list a stateless FeatureBase extractor produces from a
given last-submission register. -/
def pairVals (g : Sub → Option Sub → Val) (last : Option Sub) :
    List Sub → List Val
  | [] => []
  | s :: rest => g s last :: pairVals g (some s) rest

theorem runSimpleFrom_stateless (g : Sub → Option Sub → Val) (l : List Sub) :
    ∀ st : SimpleState Unit,
    (runSimpleFrom (fun (u : Unit) s last => (u, g s last)) st l).vals =
      st.vals ++ pairVals g st.curSub l := by
  induction l with
  | nil => intro st; simp [runSimpleFrom, pairVals]
  | cons s rest ih =>
      intro st
      simp only [runSimpleFrom, List.foldl_cons] at ih ⊢
      rw [ih]
      simp [simpleStep, pairVals]

theorem pairVals_getD (g : Sub → Option Sub → Val) (l : List Sub) :
    ∀ (last : Option Sub) (i : Nat), i + 1 < l.length →
    (pairVals g last l).getD (i + 1) Val.none =
      g (subAt l (i + 1)) (some (subAt l i)) := by
  induction l with
  | nil => intro last i h; simp at h
  | cons s rest ih =>
      intro last i h
      cases i with
      | zero =>
          cases rest with
          | nil => simp at h
          | cons x xs => simp [pairVals, subAt]
      | succ j =>
          have h2 : j + 1 < rest.length := by
            simp only [List.length_cons] at h
            omega
          have := ih (some s) j h2
          simp only [pairVals, List.getD_cons_succ] at this ⊢
          rw [this]
          simp [subAt]

/-- C9: for the first submission the submission_same_as_previous
extractor consumes, its emitted value is False (not null); for every
later consumed submission it is True exactly when the current and
previous consumed submissions' solution texts compare equal. -/
theorem identicalSubmission_spec :
    (∀ (subms : List Sub) (s : Sub) (rest : List Sub),
      consumedSubs subms = s :: rest →
      (runSimple identF () subms).vals.head? = some (Val.bool false)) ∧
    (∀ (subms : List Sub) (i : Nat), i + 1 < (consumedSubs subms).length →
      (runSimple identF () subms).vals.getD (i + 1) Val.none =
        Val.bool ((subAt (consumedSubs subms) (i + 1)).solution ==
                  (subAt (consumedSubs subms) i).solution)) := by
  constructor
  · intro subms s rest h
    rw [runSimple, show identF = fun (u : Unit) s last => (u, identVal s last)
      from rfl, runSimpleFrom_stateless, h]
    simp [pairVals, identVal]
  · intro subms i h
    rw [runSimple, show identF = fun (u : Unit) s last => (u, identVal s last)
      from rfl, runSimpleFrom_stateless]
    simp only [List.nil_append]
    rw [pairVals_getD identVal (consumedSubs subms) Option.none i h]
    rfl

/-- Witness for C9: a concrete two-submission run has head value False
and second value the solution-text comparison of the two submissions. -/
theorem identicalSubmission_spec_witness :
    (runSimple identF () [c8s1, c8s2]).vals.head? = some (Val.bool false) ∧
    (runSimple identF () [c8s1, c8s2]).vals.getD 1 Val.none =
      Val.bool ((subAt (consumedSubs [c8s1, c8s2]) 1).solution ==
                (subAt (consumedSubs [c8s1, c8s2]) 0).solution) :=
  ⟨identicalSubmission_spec.1 [c8s1, c8s2] c8s1 [c8s2] (by decide),
   identicalSubmission_spec.2 [c8s1, c8s2] 0 (by decide)⟩

def digitVal (c : Char) : Nat := c.toNat - 48

/-- One step of re.split on a single space character: split the line at
its first space, if any. -/
def splitSpaceOnce : List Char → Option (List Char × List Char)
  | [] => Option.none
  | c :: rest =>
      if c = ' ' then some ([], rest)
      else
        match splitSpaceOnce rest with
        | some (a, b) => some (c :: a, b)
        | Option.none => Option.none

/-- re.split(' ', line, maxsplit=2) (extract.py line 38 /
logevents.py line 38). -/
def splitSpaceMax2 (cs : List Char) : List (List Char) :=
  match splitSpaceOnce cs with
  | Option.none => [cs]
  | some (a, r) =>
      match splitSpaceOnce r with
      | Option.none => [a, r]
      | some (b, r2) => [a, b, r2]

/-- str.strip(';'): remove all leading and trailing semicolons — only at
the two ends of the string (extract.py line 40). -/
def stripSemis (cs : List Char) : List Char :=
  ((cs.dropWhile (fun c => c = ';')).reverse.dropWhile
    (fun c => c = ';')).reverse

/-- strptime %H: 2[0-3], [0-1] followed by a digit, or a single digit. -/
def parseHour2 : List Char → Option (Nat × List Char)
  | c0 :: c1 :: rest =>
      if c0 = '2' ∧ c1.isDigit ∧ digitVal c1 ≤ 3 then
        some (20 + digitVal c1, rest)
      else if (c0 = '0' ∨ c0 = '1') ∧ c1.isDigit then
        some (10 * digitVal c0 + digitVal c1, rest)
      else if c0.isDigit then some (digitVal c0, c1 :: rest)
      else Option.none
  | [c0] => if c0.isDigit then some (digitVal c0, []) else Option.none
  | [] => Option.none

/-- strptime %M (also the digit shape of %S): [0-5] followed by a digit,
or a single digit. -/
def parseMinSec2 : List Char → Option (Nat × List Char)
  | c0 :: c1 :: rest =>
      if c0.isDigit ∧ digitVal c0 ≤ 5 ∧ c1.isDigit then
        some (10 * digitVal c0 + digitVal c1, rest)
      else if c0.isDigit then some (digitVal c0, c1 :: rest)
      else Option.none
  | [c0] => if c0.isDigit then some (digitVal c0, []) else Option.none
  | [] => Option.none

/-- strptime %d: 3[01], [12] followed by a digit, 0[1-9], or a single
nonzero digit. -/
def parseDay2 : List Char → Option (Nat × List Char)
  | c0 :: c1 :: rest =>
      if c0 = '3' ∧ (c1 = '0' ∨ c1 = '1') then some (30 + digitVal c1, rest)
      else if (c0 = '1' ∨ c0 = '2') ∧ c1.isDigit then
        some (10 * digitVal c0 + digitVal c1, rest)
      else if c0 = '0' ∧ c1.isDigit ∧ 1 ≤ digitVal c1 then
        some (digitVal c1, rest)
      else if c0.isDigit ∧ 1 ≤ digitVal c0 then some (digitVal c0, c1 :: rest)
      else Option.none
  | [c0] =>
      if c0.isDigit ∧ 1 ≤ digitVal c0 then some (digitVal c0, [])
      else Option.none
  | [] => Option.none

/-- strptime %m: 1[0-2], 0[1-9], or a single nonzero digit. -/
def parseMonth2 : List Char → Option (Nat × List Char)
  | c0 :: c1 :: rest =>
      if c0 = '1' ∧ c1.isDigit ∧ digitVal c1 ≤ 2 then
        some (10 + digitVal c1, rest)
      else if c0 = '0' ∧ c1.isDigit ∧ 1 ≤ digitVal c1 then
        some (digitVal c1, rest)
      else if c0.isDigit ∧ 1 ≤ digitVal c0 then some (digitVal c0, c1 :: rest)
      else Option.none
  | [c0] =>
      if c0.isDigit ∧ 1 ≤ digitVal c0 then some (digitVal c0, [])
      else Option.none
  | [] => Option.none

/-- strptime %Y: exactly four digits. -/
def parseYear4 : List Char → Option (Nat × List Char)
  | a :: b :: c :: d :: rest =>
      if a.isDigit ∧ b.isDigit ∧ c.isDigit ∧ d.isDigit then
        some (1000 * digitVal a + 100 * digitVal b + 10 * digitVal c +
          digitVal d, rest)
      else Option.none
  | _ => Option.none

/-- The whitespace class of the \s+ that a literal space in a strptime
format stands for. -/
def isPySpace (c : Char) : Bool :=
  c = ' ' ∨ c = '\t' ∨ c = '\n' ∨ c = '\r' ∨ c = '\x0b' ∨ c = '\x0c'

/-- At least one whitespace character, consumed greedily (the \s+ the
format's literal space compiles to). -/
def parseSpaces1 : List Char → Option (List Char)
  | c :: rest =>
      if isPySpace c then some (rest.dropWhile isPySpace) else Option.none
  | [] => Option.none

def expectChar (c : Char) : List Char → Option (List Char)
  | x :: rest => if x = c then some rest else Option.none
  | [] => Option.none

/-- The datetime value a successful parse produces. -/
structure DateTime where
  hour : Nat
  minute : Nat
  second : Nat
  day : Nat
  month : Nat
  year : Nat
  deriving DecidableEq, Repr

def isLeapYear (y : Nat) : Bool := (y % 4 = 0 ∧ y % 100 ≠ 0) ∨ y % 400 = 0

def daysInMonth (y m : Nat) : Nat :=
  if m = 2 then (if isLeapYear y then 29 else 28)
  else if m = 4 ∨ m = 6 ∨ m = 9 ∨ m = 11 then 30
  else 31

/-- datetime.strptime(s, (two-digit time fields, colon, space,
day/month/year fields)) for the full input: the field patterns above in
sequence, no unconverted data allowed, followed by the datetime
constructor's range checks (seconds 0-59, year at least 1, calendar day
within the month). -/
def parseTimestamp (cs : List Char) : Option DateTime := do
  let (h, cs1) ← parseHour2 cs
  let cs2 ← expectChar ':' cs1
  let (mi, cs3) ← parseMinSec2 cs2
  let cs4 ← expectChar ':' cs3
  let (s, cs5) ← parseMinSec2 cs4
  let cs6 ← parseSpaces1 cs5
  let (d, cs7) ← parseDay2 cs6
  let cs8 ← expectChar '/' cs7
  let (mo, cs9) ← parseMonth2 cs8
  let cs10 ← expectChar '/' cs9
  let (y, cs11) ← parseYear4 cs10
  if cs11 = [] ∧ s ≤ 59 ∧ 1 ≤ y ∧ d ≤ daysInMonth y mo then
    some (DateTime.mk h mi s d mo y)
  else Option.none

/-- timestamp_extract (extract.py lines 25-47, identically
MultilineLogEvent._timestamp_extract in logevents.py lines 25-47): split
on single spaces with maxsplit 2, join the first two segments with a
space, strip semicolons from the two ends of the joined string, parse it
as a timestamp, and return it with the third segment; any parse failure
or fewer than three segments raises ValueError, modelled as none. -/
def timestampExtract (cs : List Char) : Option (DateTime × List Char) :=
  match splitSpaceMax2 cs with
  | [a, b, rest] =>
      match parseTimestamp (stripSemis (a ++ [' '] ++ b)) with
      | some dt => some (dt, rest)
      | Option.none => Option.none
  | _ => Option.none

theorem splitSpaceOnce_append (t : List Char) (rest : List Char)
    (h : ' ' ∉ t) : splitSpaceOnce (t ++ ' ' :: rest) = some (t, rest) := by
  induction t with
  | nil => simp [splitSpaceOnce]
  | cons c cs ih =>
      have hc : ¬ c = ' ' := fun hcc => h (hcc ▸ List.mem_cons_self c cs)
      have hcs : ' ' ∉ cs := fun hm => h (List.mem_cons_of_mem c hm)
      simp only [List.cons_append, splitSpaceOnce, if_neg hc, List.append_eq,
        ih hcs]

/-- C6 counterexample: the claim asserts the extractor still succeeds
when the time token carries a trailing semicolon; on the concrete line
below (valid time token with trailing semicolon, valid date token) the
source strips semicolons only at the two ends of the joined timestamp
string, the interior semicolon survives, and extraction fails. -/
theorem timestampExtract_semicolon_time_token_fails :
    timestampExtract (String.data ("12:00:00; 01/01/2020 rest")) =
      Option.none := by decide

/-- C6 amended: for a line of at least three space-delimited segments,
the extractor returns exactly the strptime parse of the first two
segments joined by a space with semicolons stripped from the two ends
of the joined string (paired with the remainder when the parse
succeeds); in particular a trailing semicolon at the end of the whole
timestamp — after the date token — is stripped and tolerated, while a
semicolon trailing the time token itself is interior and makes
extraction fail. -/
theorem timestampExtract_amended :
    (∀ (t0 t1 r : List Char), ' ' ∉ t0 → ' ' ∉ t1 →
      timestampExtract (t0 ++ (' ' :: (t1 ++ (' ' :: r)))) =
        match parseTimestamp (stripSemis (t0 ++ [' '] ++ t1)) with
        | some dt => some (dt, r)
        | Option.none => Option.none) ∧
    timestampExtract (String.data ("12:00:00 01/01/2020; x")) =
      some (DateTime.mk 12 0 0 1 1 2020, String.data ("x")) := by
  constructor
  · intro t0 t1 r h0 h1
    have hs1 := splitSpaceOnce_append t0 (t1 ++ ' ' :: r) h0
    have hs2 := splitSpaceOnce_append t1 r h1
    unfold timestampExtract splitSpaceMax2
    rw [hs1]
    dsimp only
    rw [hs2]
  · decide

/-- Witness for C6's amended theorem at a concrete line whose timestamp
carries a trailing semicolon after the date token. -/
theorem timestampExtract_amended_witness :
    timestampExtract (String.data ("12:00:00") ++ (' ' ::
        (String.data ("01/01/2020;") ++ (' ' :: String.data ("x"))))) =
      match parseTimestamp (stripSemis (String.data ("12:00:00") ++ [' '] ++
          String.data ("01/01/2020;"))) with
      | some dt => some (dt, String.data ("x"))
      | Option.none => Option.none :=
  timestampExtract_amended.1 (String.data ("12:00:00"))
    (String.data ("01/01/2020;")) (String.data ("x")) (by decide) (by decide)

end SqlTutor
